import Mathlib

/-!
Verification development for the SecretBinding controller of the gardener
repository (package secretbinding, the reviewed controller source) together
with the Bastion extension type
(pkg/apis/extensions/v1alpha1/types_bastion.go).

The development shallowly embeds:

* the rate-limited work queue used by the controller (one instance per
  resource kind) as a pure data structure with the operations Add, Get,
  Done, Len and ShutDown;
* the constructor NewSecretBindingController as a fallible function over an
  abstract client map / informer environment;
* the procedure Controller.Run as a small-step transition system covering
  the cache-sync wait, worker spawning, the running-worker counter
  goroutine, the cancellation signal and the shutdown drain loop;
* the Bastion resource type together with its update validation.

Stateful Go code becomes explicit state passing or a step relation on a
state type; fallible code returns Except. Finite sets are represented as
duplicate-free lists so that every definition evaluates on concrete input.
-/

namespace Gardener

/-- A work-queue key: the qualifying scope plus the object name, as produced
by the standard key function (namespace slash name). -/
abbrev Key := String

/-- Modelled from the spec: the deduplicating, rate-limited work queue
(section 4.2 of the design; the implementing package
k8s.io/client-go/util/workqueue is not part of the reviewed sources).
`queue` holds the ready keys in FIFO order, `dirty` the set of keys that
are pending (including keys re-added while in flight), `processing` the set
of in-flight keys, and `shuttingDown` records the one-way ShutDown
transition. The two set fields are lists used as sets. -/
structure WorkQueue where
  name : String
  queue : List Key
  dirty : List Key
  processing : List Key
  shuttingDown : Bool
deriving DecidableEq

namespace WorkQueue

/-- A freshly constructed named rate-limiting queue
(workqueue.NewNamedRateLimitingQueue): empty and accepting. -/
def newNamed (n : String) : WorkQueue :=
  { name := n, queue := [], dirty := [], processing := [], shuttingDown := false }

/-- Add(key): no-op once shutting down or when the key is already pending
(dedup); if the key is in flight, only mark it dirty so that Done re-queues
it; otherwise append it to the ready list. -/
def add (q : WorkQueue) (k : Key) : WorkQueue :=
  if q.shuttingDown then q
  else if k ∈ q.dirty then q
  else if k ∈ q.processing then { q with dirty := q.dirty.insert k }
  else { q with dirty := q.dirty.insert k, queue := q.queue ++ [k] }

/-- Len(): the number of ready keys. -/
def len (q : WorkQueue) : Nat := q.queue.length

/-- ShutDown(): stop accepting new keys; Get keeps draining. -/
def shutDown (q : WorkQueue) : WorkQueue := { q with shuttingDown := true }

/-- Get(): pop the head of the ready list, mark it in flight and clear its
dirty mark. The result is none when no key is ready (the call would either
block or, when shutting down, return the shutdown signal). -/
def get (q : WorkQueue) : Option (Key × WorkQueue) :=
  match q.queue with
  | [] => none
  | k :: rest =>
      some (k, { q with
        queue := rest
        processing := q.processing.insert k
        dirty := q.dirty.erase k })

/-- Done(key): clear the in-flight mark; if the key was re-added while in
flight (dirty), make it immediately eligible for redelivery. -/
def done (q : WorkQueue) (k : Key) : WorkQueue :=
  if k ∈ q.dirty then
    { q with processing := q.processing.erase k, queue := q.queue ++ [k] }
  else
    { q with processing := q.processing.erase k }

@[simp] lemma add_shuttingDown (q : WorkQueue) (k : Key) :
    (q.add k).shuttingDown = q.shuttingDown := by
  unfold add
  split <;> [rfl; skip]
  split <;> [rfl; skip]
  split <;> rfl

@[simp] lemma shutDown_queue (q : WorkQueue) : q.shutDown.queue = q.queue := rfl

@[simp] lemma shutDown_len (q : WorkQueue) : q.shutDown.len = q.len := rfl

@[simp] lemma shutDown_shuttingDown (q : WorkQueue) :
    q.shutDown.shuttingDown = true := rfl

@[simp] lemma done_shuttingDown (q : WorkQueue) (k : Key) :
    (q.done k).shuttingDown = q.shuttingDown := by
  unfold done; split <;> rfl

lemma get_shuttingDown {q q' : WorkQueue} {k : Key} (h : q.get = some (k, q')) :
    q'.shuttingDown = q.shuttingDown := by
  unfold get at h
  cases hq : q.queue with
  | nil => rw [hq] at h; exact absurd h (by simp)
  | cons a rest =>
      rw [hq] at h
      simp only [Option.some.injEq, Prod.mk.injEq] at h
      rw [← h.2]

/-- Add on a queue that is shutting down changes nothing (new work is
rejected after ShutDown). -/
lemma add_of_shuttingDown {q : WorkQueue} (h : q.shuttingDown = true) (k : Key) :
    q.add k = q := by
  unfold add; rw [h]; simp

lemma get_queue_eq {q q' : WorkQueue} {k : Key}
    (h : q.get = some (k, q')) : ∃ rest, q.queue = k :: rest := by
  unfold get at h
  cases hq : q.queue with
  | nil => rw [hq] at h; exact absurd h (by simp)
  | cons a rest =>
      rw [hq] at h
      simp only [Option.some.injEq, Prod.mk.injEq] at h
      exact ⟨rest, by rw [h.1]⟩

/-- The structural invariant of a work queue: the ready list and the
in-flight set have no duplicates, every ready key is marked dirty, and no
in-flight key is ready. The last conjunct is the per-key serialization
mechanism. -/
def Inv (q : WorkQueue) : Prop :=
  q.queue.Nodup ∧ q.processing.Nodup ∧
    (∀ k ∈ q.queue, k ∈ q.dirty) ∧ (∀ k ∈ q.processing, k ∉ q.queue)

lemma inv_newNamed (n : String) : Inv (newNamed n) := by
  refine ⟨List.nodup_nil, List.nodup_nil, ?_, ?_⟩ <;>
    intro k hk <;> simp [newNamed] at hk

lemma inv_add {q : WorkQueue} (h : Inv q) (k : Key) : Inv (q.add k) := by
  obtain ⟨hnd, hpnd, hdirty, hproc⟩ := h
  unfold add
  split
  · exact ⟨hnd, hpnd, hdirty, hproc⟩
  split
  · exact ⟨hnd, hpnd, hdirty, hproc⟩
  split
  · refine ⟨hnd, hpnd, ?_, hproc⟩
    intro j hj
    exact List.mem_insert_iff.mpr (Or.inr (hdirty j hj))
  · rename_i hshut hdir hpr
    refine ⟨?_, hpnd, ?_, ?_⟩
    · refine List.Nodup.append hnd (List.nodup_singleton k) ?_
      intro a ha hb
      simp only [List.mem_singleton] at hb
      subst hb
      exact hdir (hdirty a ha)
    · intro j hj
      rcases List.mem_append.mp hj with hj | hj
      · exact List.mem_insert_iff.mpr (Or.inr (hdirty j hj))
      · simp only [List.mem_singleton] at hj
        subst hj
        exact List.mem_insert_iff.mpr (Or.inl rfl)
    · intro p hp hmem
      rcases List.mem_append.mp hmem with hmem | hmem
      · exact hproc p hp hmem
      · simp only [List.mem_singleton] at hmem; subst hmem; exact hpr hp

lemma inv_get {q q' : WorkQueue} {k : Key} (h : Inv q) (hg : q.get = some (k, q')) :
    Inv q' := by
  obtain ⟨hnd, hpnd, hdirty, hproc⟩ := h
  unfold get at hg
  cases hq : q.queue with
  | nil => rw [hq] at hg; exact absurd hg (by simp)
  | cons a rest =>
      rw [hq] at hg
      simp only [Option.some.injEq, Prod.mk.injEq] at hg
      obtain ⟨hk, hq'⟩ := hg
      rw [hq] at hnd
      have hndr := List.nodup_cons.mp hnd
      rw [← hq']
      refine ⟨hndr.2, hpnd.insert, ?_, ?_⟩
      · intro j hj
        have hjd : j ∈ q.dirty :=
          hdirty j (by rw [hq]; exact List.mem_cons_of_mem _ hj)
        have hne : j ≠ a := fun he => hndr.1 (he ▸ hj)
        exact (List.mem_erase_of_ne hne).mpr hjd
      · intro p hp
        rcases List.mem_insert_iff.mp hp with hp | hp
        · exact hp ▸ hndr.1
        · intro hmem
          exact hproc p hp (by rw [hq]; exact List.mem_cons_of_mem _ hmem)

lemma inv_done {q : WorkQueue} {k : Key} (h : Inv q) (hk : k ∈ q.processing) :
    Inv (q.done k) := by
  obtain ⟨hnd, hpnd, hdirty, hproc⟩ := h
  unfold done
  split
  · rename_i hdir
    refine ⟨?_, hpnd.erase k, ?_, ?_⟩
    · refine List.Nodup.append hnd (List.nodup_singleton k) ?_
      intro a ha hb
      simp only [List.mem_singleton] at hb
      subst hb
      exact hproc _ hk ha
    · intro j hj
      rcases List.mem_append.mp hj with hj | hj
      · exact hdirty j hj
      · simp only [List.mem_singleton] at hj; subst hj; exact hdir
    · intro p hp hmem
      have hp' := hpnd.mem_erase_iff.mp hp
      rcases List.mem_append.mp hmem with hmem | hmem
      · exact hproc p hp'.2 hmem
      · simp only [List.mem_singleton] at hmem; exact hp'.1 hmem
  · refine ⟨hnd, hpnd.erase k, hdirty, ?_⟩
    intro p hp
    exact hproc p (List.mem_of_mem_erase hp)

end WorkQueue

/-- One step of the work-queue client interface: an Add with an arbitrary
key, a ShutDown, a successful Get, or a Done for an in-flight key (the
worker discipline calls Done only for a key it obtained from Get). -/
inductive QStep : WorkQueue → WorkQueue → Prop
  | add (q q' : WorkQueue) (k : Key) (h : q' = q.add k) : QStep q q'
  | shutdown (q q' : WorkQueue) (h : q' = q.shutDown) : QStep q q'
  | get (q q' : WorkQueue) (k : Key) (h : q.get = some (k, q')) : QStep q q'
  | done (q q' : WorkQueue) (k : Key) (hk : k ∈ q.processing)
      (h : q' = q.done k) : QStep q q'

/-- Reachability of queue states through the client interface. -/
def QReach : WorkQueue → WorkQueue → Prop := Relation.ReflTransGen QStep

lemma qstep_preserves_inv {q q' : WorkQueue} (h : WorkQueue.Inv q) (s : QStep q q') :
    WorkQueue.Inv q' := by
  cases s with
  | add k he => exact he ▸ WorkQueue.inv_add h k
  | shutdown he => obtain ⟨a, b, c, d⟩ := h; exact he ▸ ⟨a, b, c, d⟩
  | get k hg => exact WorkQueue.inv_get h hg
  | done k hk he => exact he ▸ WorkQueue.inv_done h hk

lemma qreach_preserves_inv {q q' : WorkQueue} (h : WorkQueue.Inv q)
    (r : QReach q q') : WorkQueue.Inv q' := by
  induction r with
  | refl => exact h
  | tail _ step ih => exact qstep_preserves_inv ih step

/-- Claim C5: for every key, at most one Get on a queue may return that key
without an intervening Done for it (a key returned by Get is never already
in flight), serializing reconciliation per key; and parallelism across
distinct keys is unrestricted (a reachable state has two distinct keys in
flight simultaneously). -/
theorem workQueue_at_most_one_in_flight (q : WorkQueue)
    (hreach : QReach (WorkQueue.newNamed "SecretBinding") q)
    (k : Key) (q' : WorkQueue) (hget : q.get = some (k, q')) :
    k ∉ q.processing ∧
      ∃ r : WorkQueue, QReach (WorkQueue.newNamed "SecretBinding") r ∧
        "a" ∈ r.processing ∧ "b" ∈ r.processing ∧ ("a" : Key) ≠ "b" := by
  constructor
  · have hinv := qreach_preserves_inv (WorkQueue.inv_newNamed _) hreach
    obtain ⟨rest, hq⟩ := WorkQueue.get_queue_eq hget
    intro hk
    exact hinv.2.2.2 k hk (by rw [hq]; exact List.mem_cons_self _ _)
  · refine ⟨⟨"SecretBinding", [], [], ["b", "a"], false⟩, ?_, by decide, by decide, by decide⟩
    refine Relation.ReflTransGen.head
      (QStep.add _ ⟨"SecretBinding", ["a"], ["a"], [], false⟩ "a" (by decide)) ?_
    refine Relation.ReflTransGen.head
      (QStep.add _ ⟨"SecretBinding", ["a", "b"], ["b", "a"], [], false⟩ "b" (by decide)) ?_
    refine Relation.ReflTransGen.head
      (QStep.get _ ⟨"SecretBinding", ["b"], ["b"], ["a"], false⟩ "a" (by decide)) ?_
    exact Relation.ReflTransGen.single (QStep.get _ _ "b" (by decide))

/-- Witness for claim C5 at a concrete queue: after adding keys a and b,
Get returns a, and a was not in flight. -/
theorem workQueue_at_most_one_in_flight_witness :
    ("a" : Key) ∉ (((WorkQueue.newNamed "SecretBinding").add "a").add "b").processing ∧
      ∃ r : WorkQueue, QReach (WorkQueue.newNamed "SecretBinding") r ∧
        "a" ∈ r.processing ∧ "b" ∈ r.processing ∧ ("a" : Key) ≠ "b" :=
  workQueue_at_most_one_in_flight
    (((WorkQueue.newNamed "SecretBinding").add "a").add "b")
    (Relation.ReflTransGen.head (QStep.add _ _ "a" rfl)
      (Relation.ReflTransGen.single (QStep.add _ _ "b" rfl)))
    "a" ⟨"SecretBinding", ["b"], ["b"], ["a"], false⟩ (by decide)

/-! ### The controller constructor (NewSecretBindingController) -/

/-- The identity of the two queues owned by the controller. -/
inductive QueueId
  | secretBinding
  | shoot
deriving DecidableEq

/-- The identity of the two reconcilers wired by the constructor. -/
inductive ReconcilerId
  | secretBinding
  | secretBindingProvider
deriving DecidableEq

/-- A SecretBinding object, reduced to its identity (qualifying scope and
name). -/
structure SecretBinding where
  scope : String
  name : String
deriving DecidableEq

/-- A Shoot object, reduced to its identity and its reference (by name) to
the SecretBinding it uses. -/
structure Shoot where
  scope : String
  name : String
  secretBindingName : String
deriving DecidableEq

/-- The standard object key: qualifying scope slash name. -/
def SecretBinding.key (sb : SecretBinding) : Key := sb.scope ++ "/" ++ sb.name

/-- A queue operation requested by an event handler: which queue receives
which key. -/
structure QueueOp where
  target : QueueId
  key : Key
deriving DecidableEq

/-- Modelled from the spec: the primary-kind add handler (the method
secretBindingAdd, whose body is not part of the reviewed sources) enqueues
the observed object's key immediately. -/
def secretBindingAddHandler (sb : SecretBinding) : QueueOp :=
  ⟨QueueId.secretBinding, sb.key⟩

/-- Modelled from the spec: the primary-kind update handler
(secretBindingUpdate, body not part of the reviewed sources) enqueues the
new object's key immediately. -/
def secretBindingUpdateHandler (_old new : SecretBinding) : QueueOp :=
  ⟨QueueId.secretBinding, new.key⟩

/-- Modelled from the spec: the primary-kind delete handler
(secretBindingDelete, body not part of the reviewed sources) enqueues the
deleted object's key immediately. -/
def secretBindingDeleteHandler (sb : SecretBinding) : QueueOp :=
  ⟨QueueId.secretBinding, sb.key⟩

/-- Modelled from the spec: the secondary-kind add handler (shootAdd, body
not part of the reviewed sources) resolves the Shoot's reference and
enqueues the referenced SecretBinding's key; per the wiring in Run, the
queue it fills is the one drained by the SecretBinding provider
reconciler. -/
def shootAddHandler (s : Shoot) : QueueOp :=
  ⟨QueueId.shoot, s.scope ++ "/" ++ s.secretBindingName⟩

/-- cache.ResourceEventHandlerFuncs: the handler functions a controller
registers on an informer; an absent member means no handler of that kind is
registered. -/
structure ResourceEventHandlerFuncs (α : Type) where
  addFunc : Option (α → QueueOp)
  updateFunc : Option (α → α → QueueOp)
  deleteFunc : Option (α → QueueOp)

/-- An informer as seen by the controller: its HasSynced readiness signal,
indexed by time. -/
structure Informer where
  hasSynced : Nat → Bool

/-- The garden client, exposing the two informer lookups, each of which can
fail. -/
structure GardenClient where
  secretBindingInformer : Except String Informer
  shootInformer : Except String Informer

/-- The client map, whose garden-client lookup can fail. -/
structure ClientMap where
  getClient : Except String GardenClient

/-- The Controller structure (source lines 36 to 47), extended with a
record of the event-handler registrations the constructor performs on the
two informers. The worker channel is an Option so that its allocation by
the constructor is visible; the running-worker counter itself lives in the
Run state. -/
structure Controller where
  reconciler : ReconcilerId
  secretBindingProviderReconciler : ReconcilerId
  hasSyncedFuncs : List (Nat → Bool)
  secretBindingQueue : WorkQueue
  shootQueue : WorkQueue
  workerCh : Option (List Int)
  secretBindingHandlers : ResourceEventHandlerFuncs SecretBinding
  shootHandlers : ResourceEventHandlerFuncs Shoot

/-- NewSecretBindingController (source lines 52 to 96): obtain the garden
client, obtain the two informers (wrapping their errors), construct the
controller with two fresh named queues and a fresh worker channel, register
add, update and delete handlers on the SecretBinding informer and only an
add handler on the Shoot informer, and record the two HasSynced
functions. -/
def newSecretBindingController (clientMap : ClientMap) : Except String Controller :=
  match clientMap.getClient with
  | Except.error e => Except.error e
  | Except.ok gardenClient =>
  match gardenClient.secretBindingInformer with
  | Except.error e => Except.error ("failed to get SecretBinding Informer: " ++ e)
  | Except.ok secretBindingInformer =>
  match gardenClient.shootInformer with
  | Except.error e => Except.error ("failed to get Shoot Informer: " ++ e)
  | Except.ok shootInformer =>
  Except.ok
    { reconciler := ReconcilerId.secretBinding
      secretBindingProviderReconciler := ReconcilerId.secretBindingProvider
      hasSyncedFuncs := [secretBindingInformer.hasSynced, shootInformer.hasSynced]
      secretBindingQueue := WorkQueue.newNamed "SecretBinding"
      shootQueue := WorkQueue.newNamed "Shoot"
      workerCh := some []
      secretBindingHandlers :=
        { addFunc := some secretBindingAddHandler
          updateFunc := some secretBindingUpdateHandler
          deleteFunc := some secretBindingDeleteHandler }
      shootHandlers :=
        { addFunc := some shootAddHandler
          updateFunc := none
          deleteFunc := none } }

/-- Claim C9: the constructor returns an error exactly when obtaining the
garden client or obtaining either informer fails (informer errors are
wrapped); on success the controller carries two freshly created queues, an
allocated worker channel, and exactly the two informers' HasSynced
functions. -/
theorem newSecretBindingController_spec (clientMap : ClientMap) :
    (∀ e, clientMap.getClient = Except.error e →
      newSecretBindingController clientMap = Except.error e) ∧
    (∀ gc e, clientMap.getClient = Except.ok gc →
      gc.secretBindingInformer = Except.error e →
      newSecretBindingController clientMap =
        Except.error ("failed to get SecretBinding Informer: " ++ e)) ∧
    (∀ gc sbInf e, clientMap.getClient = Except.ok gc →
      gc.secretBindingInformer = Except.ok sbInf →
      gc.shootInformer = Except.error e →
      newSecretBindingController clientMap =
        Except.error ("failed to get Shoot Informer: " ++ e)) ∧
    (∀ gc sbInf shInf, clientMap.getClient = Except.ok gc →
      gc.secretBindingInformer = Except.ok sbInf →
      gc.shootInformer = Except.ok shInf →
      ∃ c, newSecretBindingController clientMap = Except.ok c ∧
        c.secretBindingQueue = WorkQueue.newNamed "SecretBinding" ∧
        c.shootQueue = WorkQueue.newNamed "Shoot" ∧
        c.workerCh.isSome = true ∧
        c.hasSyncedFuncs = [sbInf.hasSynced, shInf.hasSynced]) := by
  refine ⟨?_, ?_, ?_, ?_⟩
  · intro e h
    simp [newSecretBindingController, h]
  · intro gc e h1 h2
    simp [newSecretBindingController, h1, h2]
  · intro gc sbInf e h1 h2 h3
    simp [newSecretBindingController, h1, h2, h3]
  · intro gc sbInf shInf h1 h2 h3
    refine ⟨{ reconciler := ReconcilerId.secretBinding
              secretBindingProviderReconciler := ReconcilerId.secretBindingProvider
              hasSyncedFuncs := [sbInf.hasSynced, shInf.hasSynced]
              secretBindingQueue := WorkQueue.newNamed "SecretBinding"
              shootQueue := WorkQueue.newNamed "Shoot"
              workerCh := some []
              secretBindingHandlers :=
                { addFunc := some secretBindingAddHandler
                  updateFunc := some secretBindingUpdateHandler
                  deleteFunc := some secretBindingDeleteHandler }
              shootHandlers :=
                { addFunc := some shootAddHandler
                  updateFunc := none
                  deleteFunc := none } }, ?_, rfl, rfl, rfl, rfl⟩
    simp [newSecretBindingController, h1, h2, h3]

/-- A concrete fully successful environment for the constructor. -/
def clientMapOk : ClientMap :=
  ⟨Except.ok ⟨Except.ok ⟨fun _ => true⟩, Except.ok ⟨fun _ => true⟩⟩⟩

/-- The controller built by the constructor in the fully successful
environment. -/
def controllerOk : Controller :=
  { reconciler := ReconcilerId.secretBinding
    secretBindingProviderReconciler := ReconcilerId.secretBindingProvider
    hasSyncedFuncs := [fun _ => true, fun _ => true]
    secretBindingQueue := WorkQueue.newNamed "SecretBinding"
    shootQueue := WorkQueue.newNamed "Shoot"
    workerCh := some []
    secretBindingHandlers :=
      { addFunc := some secretBindingAddHandler
        updateFunc := some secretBindingUpdateHandler
        deleteFunc := some secretBindingDeleteHandler }
    shootHandlers :=
      { addFunc := some shootAddHandler
        updateFunc := none
        deleteFunc := none } }

/-- Witness for claim C9 at the concrete successful environment. -/
theorem newSecretBindingController_spec_witness :
    ∃ c, newSecretBindingController clientMapOk = Except.ok c ∧
      c.secretBindingQueue = WorkQueue.newNamed "SecretBinding" ∧
      c.shootQueue = WorkQueue.newNamed "Shoot" ∧
      c.workerCh.isSome = true ∧
      c.hasSyncedFuncs = [Informer.hasSynced ⟨fun _ => true⟩,
        Informer.hasSynced ⟨fun _ => true⟩] :=
  (newSecretBindingController_spec clientMapOk).2.2.2
    ⟨Except.ok ⟨fun _ => true⟩, Except.ok ⟨fun _ => true⟩⟩
    ⟨fun _ => true⟩ ⟨fun _ => true⟩ rfl rfl rfl

/-- Claim C7: the constructed controller registers add, update and delete
handlers on the primary (SecretBinding) informer, registers only an add
handler on the secondary (Shoot) informer, and that handler enqueues the
referenced SecretBinding's key. -/
theorem newSecretBindingController_handlers (clientMap : ClientMap)
    (c : Controller) (h : newSecretBindingController clientMap = Except.ok c) :
    c.secretBindingHandlers.addFunc.isSome = true ∧
    c.secretBindingHandlers.updateFunc.isSome = true ∧
    c.secretBindingHandlers.deleteFunc.isSome = true ∧
    c.shootHandlers.updateFunc = none ∧
    c.shootHandlers.deleteFunc = none ∧
    ∃ f, c.shootHandlers.addFunc = some f ∧
      ∀ s : Shoot, (f s).key = s.scope ++ "/" ++ s.secretBindingName := by
  cases hc : clientMap.getClient with
  | error e => simp [newSecretBindingController, hc] at h
  | ok gc =>
    cases hsb : gc.secretBindingInformer with
    | error e => simp [newSecretBindingController, hc, hsb] at h
    | ok sbInf =>
      cases hsh : gc.shootInformer with
      | error e => simp [newSecretBindingController, hc, hsb, hsh] at h
      | ok shInf =>
        simp only [newSecretBindingController, hc, hsb, hsh, Except.ok.injEq] at h
        subst h
        exact ⟨rfl, rfl, rfl, rfl, rfl, shootAddHandler, rfl, fun _ => rfl⟩

/-- Witness for claim C7 at the concrete successful environment. -/
theorem newSecretBindingController_handlers_witness :
    controllerOk.secretBindingHandlers.addFunc.isSome = true ∧
    controllerOk.secretBindingHandlers.updateFunc.isSome = true ∧
    controllerOk.secretBindingHandlers.deleteFunc.isSome = true ∧
    controllerOk.shootHandlers.updateFunc = none ∧
    controllerOk.shootHandlers.deleteFunc = none ∧
    ∃ f, controllerOk.shootHandlers.addFunc = some f ∧
      ∀ s : Shoot, (f s).key = s.scope ++ "/" ++ s.secretBindingName :=
  newSecretBindingController_handlers clientMapOk controllerOk rfl

/-! ### Controller.Run as a transition system

Run (source lines 99 to 141) is embedded as a small-step transition system.
The unbuffered worker channel is folded into the transitions: a CreateWorker
call sends a plus-one signal that is consumed (and materialized into
numberOfRunningWorkers) before CreateWorker returns, and a worker exit
sends a minus-one signal; the counter goroutine (lines 108 to 113) applies
every received signal before taking the next one, so the materialized value
observed by the drain loop never undercounts running workers. Worker
reconcile outcomes (Forget, AddRateLimited, AddAfter) and informer events
are both covered by the unconstrained add transitions. -/

/-- The status of a spawned worker task. -/
inductive WStatus
  | idle
  | processing (k : Key)
  | exited
deriving DecidableEq

/-- The contribution of one worker to the running-worker count: one unless
it has terminated. -/
def WStatus.weight : WStatus → Nat
  | WStatus.exited => 0
  | _ => 1

/-- The number of workers in a pool that have not yet terminated. -/
def countNonExited : List WStatus → Nat
  | [] => 0
  | w :: ws => w.weight + countNonExited ws

/-- The phases of Controller.Run: waiting for the cache sync, normal
operation, the post-cancellation drain loop, and having returned. -/
inductive RunPhase
  | waitSync
  | running
  | drain
  | returned
deriving DecidableEq

/-- A worker created by controllerutils.CreateWorker: the queue it serves
and the reconciler it invokes. -/
structure WorkerSpec where
  queue : QueueId
  reconciler : ReconcilerId
deriving DecidableEq

/-- The workers created by the two loops of Run (source lines 117 to 122):
first the SecretBinding-queue workers wired to the SecretBinding
reconciler, then the Shoot-queue workers wired to the SecretBinding
provider reconciler. Modelled from the spec: CreateWorker itself
(pkg/controllerutils, not part of the reviewed sources) creates exactly one
worker per call, per the worker-pool section of the design. -/
def spawnWorkers (m n : Nat) : List WorkerSpec :=
  List.replicate m ⟨QueueId.secretBinding, ReconcilerId.secretBinding⟩ ++
    List.replicate n ⟨QueueId.shoot, ReconcilerId.secretBindingProvider⟩

/-- The state of one execution of Controller.Run, together with the state
of the two queues and the two worker pools it owns. `queueLengths` is the
local variable of line 129, computed once when the drain loop is entered;
`workerChSends` counts the signals sent on the worker channel. -/
structure RunState where
  phase : RunPhase
  cancelled : Bool
  synced : Bool
  secretBindingQueue : WorkQueue
  shootQueue : WorkQueue
  secretBindingWorkers : List WStatus
  shootWorkers : List WStatus
  numberOfRunningWorkers : Nat
  queueLengths : Nat
  workerChSends : Nat
deriving DecidableEq

/-- The state at entry of Run: waiting for caches to sync, fresh queues (as
built by the constructor), no workers, counters at zero. -/
def RunState.init : RunState :=
  { phase := RunPhase.waitSync
    cancelled := false
    synced := false
    secretBindingQueue := WorkQueue.newNamed "SecretBinding"
    shootQueue := WorkQueue.newNamed "Shoot"
    secretBindingWorkers := []
    shootWorkers := []
    numberOfRunningWorkers := 0
    queueLengths := 0
    workerChSends := 0 }

/-- One interleaved step of Run with m SecretBinding workers and n
SecretBinding-provider workers, of its workers and of its environment.

  * cancel: the context is cancelled (environment).
  * addSecretBinding / addShoot: an event handler or a worker outcome adds
    a key to a queue (rejected by the queue once it is shutting down).
  * syncOk: WaitForCacheSync (line 102) succeeds; Run spawns the workers of
    lines 117 to 122 and the worker channel materializes their m + n
    plus-one signals.
  * syncFail: WaitForCacheSync returns false, which it does only once the
    stop channel (the cancelled context) is closed; Run returns at line 104.
  * ctxDone: the receive on ctx.Done() at line 125 fires; Run shuts down
    both queues (lines 126 and 127) and computes the queueLengths snapshot
    (line 129).
  * getX / doneX: a worker of queue X obtains a key / finishes a key.
  * exitX: a worker of queue X observes its queue shut down and drained,
    terminates, and its minus-one signal is materialized.
  * checkExit: one iteration of the loop at lines 131 to 138 observes
    queueLengths == 0 and numberOfRunningWorkers == 0 and breaks; Run
    returns after waitGroup.Wait() at line 140. -/
inductive RStep (m n : Nat) : RunState → RunState → Prop
  | cancel (s s' : RunState)
      (h : s' = { s with cancelled := true }) : RStep m n s s'
  | addSecretBinding (s s' : RunState) (k : Key)
      (h : s' = { s with secretBindingQueue := s.secretBindingQueue.add k }) :
      RStep m n s s'
  | addShoot (s s' : RunState) (k : Key)
      (h : s' = { s with shootQueue := s.shootQueue.add k }) : RStep m n s s'
  | syncOk (s s' : RunState)
      (hp : s.phase = RunPhase.waitSync)
      (h : s' = { s with
        phase := RunPhase.running
        synced := true
        secretBindingWorkers := List.replicate m WStatus.idle
        shootWorkers := List.replicate n WStatus.idle
        numberOfRunningWorkers := m + n
        workerChSends := s.workerChSends + (m + n) }) : RStep m n s s'
  | syncFail (s s' : RunState)
      (hp : s.phase = RunPhase.waitSync)
      (hc : s.cancelled = true)
      (h : s' = { s with phase := RunPhase.returned }) : RStep m n s s'
  | ctxDone (s s' : RunState)
      (hp : s.phase = RunPhase.running)
      (hc : s.cancelled = true)
      (h : s' = { s with
        phase := RunPhase.drain
        secretBindingQueue := s.secretBindingQueue.shutDown
        shootQueue := s.shootQueue.shutDown
        queueLengths := s.secretBindingQueue.len + s.shootQueue.len }) :
      RStep m n s s'
  | getSecretBinding (s s' : RunState) (i : Nat) (k : Key) (q' : WorkQueue)
      (hw : s.secretBindingWorkers[i]? = some WStatus.idle)
      (hg : s.secretBindingQueue.get = some (k, q'))
      (h : s' = { s with
        secretBindingQueue := q'
        secretBindingWorkers :=
          s.secretBindingWorkers.set i (WStatus.processing k) }) :
      RStep m n s s'
  | doneSecretBinding (s s' : RunState) (i : Nat) (k : Key)
      (hw : s.secretBindingWorkers[i]? = some (WStatus.processing k))
      (h : s' = { s with
        secretBindingQueue := s.secretBindingQueue.done k
        secretBindingWorkers := s.secretBindingWorkers.set i WStatus.idle }) :
      RStep m n s s'
  | exitSecretBinding (s s' : RunState) (i : Nat)
      (hw : s.secretBindingWorkers[i]? = some WStatus.idle)
      (hq : s.secretBindingQueue.queue = [])
      (hs : s.secretBindingQueue.shuttingDown = true)
      (h : s' = { s with
        secretBindingWorkers := s.secretBindingWorkers.set i WStatus.exited
        numberOfRunningWorkers := s.numberOfRunningWorkers - 1
        workerChSends := s.workerChSends + 1 }) : RStep m n s s'
  | getShoot (s s' : RunState) (i : Nat) (k : Key) (q' : WorkQueue)
      (hw : s.shootWorkers[i]? = some WStatus.idle)
      (hg : s.shootQueue.get = some (k, q'))
      (h : s' = { s with
        shootQueue := q'
        shootWorkers := s.shootWorkers.set i (WStatus.processing k) }) :
      RStep m n s s'
  | doneShoot (s s' : RunState) (i : Nat) (k : Key)
      (hw : s.shootWorkers[i]? = some (WStatus.processing k))
      (h : s' = { s with
        shootQueue := s.shootQueue.done k
        shootWorkers := s.shootWorkers.set i WStatus.idle }) : RStep m n s s'
  | exitShoot (s s' : RunState) (i : Nat)
      (hw : s.shootWorkers[i]? = some WStatus.idle)
      (hq : s.shootQueue.queue = [])
      (hs : s.shootQueue.shuttingDown = true)
      (h : s' = { s with
        shootWorkers := s.shootWorkers.set i WStatus.exited
        numberOfRunningWorkers := s.numberOfRunningWorkers - 1
        workerChSends := s.workerChSends + 1 }) : RStep m n s s'
  | checkExit (s s' : RunState)
      (hp : s.phase = RunPhase.drain)
      (hq : s.queueLengths = 0)
      (hw : s.numberOfRunningWorkers = 0)
      (h : s' = { s with phase := RunPhase.returned }) : RStep m n s s'

/-- Reachability between Run states. -/
def RReach (m n : Nat) : RunState → RunState → Prop :=
  Relation.ReflTransGen (RStep m n)

lemma countNonExited_replicate_idle (m : Nat) :
    countNonExited (List.replicate m WStatus.idle) = m := by
  induction m with
  | zero => rfl
  | succ j ih =>
      simp only [List.replicate, countNonExited, WStatus.weight, ih]
      omega

lemma countNonExited_set {ws : List WStatus} {i : Nat} {a : WStatus}
    (b : WStatus) (hw : ws[i]? = some a) :
    countNonExited (ws.set i b) + a.weight = countNonExited ws + b.weight := by
  induction ws generalizing i with
  | nil => simp at hw
  | cons w t ih =>
      cases i with
      | zero =>
          simp only [List.getElem?_cons_zero, Option.some.injEq] at hw
          subst hw
          simp only [List.set_cons_zero, countNonExited]
          omega
      | succ j =>
          simp only [List.getElem?_cons_succ] at hw
          simp only [List.set_cons_succ, countNonExited]
          have := ih hw
          omega

lemma countNonExited_eq_zero {ws : List WStatus} :
    countNonExited ws = 0 ↔ ∀ w ∈ ws, w = WStatus.exited := by
  induction ws with
  | nil => simp [countNonExited]
  | cons w t ih =>
      cases w with
      | idle => simp [countNonExited, WStatus.weight]
      | processing k => simp [countNonExited, WStatus.weight]
      | exited => simp [countNonExited, WStatus.weight, ih]

lemma not_allExited_set {ws : List WStatus} {i : Nat} {a b : WStatus}
    (hw : ws[i]? = some a) (hb : b ≠ WStatus.exited) :
    ¬ (∀ w ∈ ws.set i b, w = WStatus.exited) := by
  intro hall
  obtain ⟨hi, -⟩ := List.getElem?_eq_some_iff.mp hw
  exact hb (hall b (List.getElem?_mem (List.getElem?_set_self hi)))

/-- Every worker of the pool being terminated forces the queue to be
drained: the property the drain invariant maintains per queue. -/
def AllExitedImpliesEmpty (q : WorkQueue) (ws : List WStatus) : Prop :=
  (∀ w ∈ ws, w = WStatus.exited) → q.queue = []

/-- The inductive invariant of the Run transition system. -/
structure RunInv (s : RunState) : Prop where
  counter_eq : s.numberOfRunningWorkers =
    countNonExited s.secretBindingWorkers + countNonExited s.shootWorkers
  running_synced : s.phase = RunPhase.running → s.synced = true
  drain_shutdown : s.phase = RunPhase.drain →
    s.synced = true ∧ s.cancelled = true ∧
      s.secretBindingQueue.shuttingDown = true ∧ s.shootQueue.shuttingDown = true
  unsynced : s.synced = false →
    s.secretBindingWorkers = [] ∧ s.shootWorkers = [] ∧
      s.numberOfRunningWorkers = 0 ∧ s.workerChSends = 0 ∧
      s.secretBindingQueue.shuttingDown = false ∧
      s.shootQueue.shuttingDown = false ∧
      (s.phase = RunPhase.waitSync ∨ s.phase = RunPhase.returned)
  returned_cancelled : s.phase = RunPhase.returned → s.cancelled = true
  drain_zero : s.phase = RunPhase.drain → s.queueLengths = 0 →
    AllExitedImpliesEmpty s.secretBindingQueue s.secretBindingWorkers ∧
      AllExitedImpliesEmpty s.shootQueue s.shootWorkers
  returned_drained : s.phase = RunPhase.returned → s.synced = true →
    s.secretBindingQueue.queue = [] ∧ s.shootQueue.queue = [] ∧
      s.numberOfRunningWorkers = 0 ∧
      s.secretBindingQueue.shuttingDown = true ∧ s.shootQueue.shuttingDown = true
  synced_not_wait : s.synced = true → s.phase ≠ RunPhase.waitSync

lemma runInv_init : RunInv RunState.init := by
  refine ⟨rfl, ?_, ?_, ?_, ?_, ?_, ?_, ?_⟩
  · intro h; exact absurd h (by decide)
  · intro h; exact absurd h (by decide)
  · intro _; exact ⟨rfl, rfl, rfl, rfl, rfl, rfl, Or.inl rfl⟩
  · intro h; exact absurd h (by decide)
  · intro h; exact absurd h (by decide)
  · intro h; exact absurd h (by decide)
  · intro h; exact absurd h (by decide)

lemma rstep_preserves_inv {m n : Nat} {s s' : RunState}
    (inv : RunInv s) (st : RStep m n s s') : RunInv s' := by
  cases st with
  | cancel h =>
      subst h
      refine ⟨inv.counter_eq, inv.running_synced, ?_, ?_, fun _ => rfl,
        inv.drain_zero, inv.returned_drained, inv.synced_not_wait⟩
      · intro hp
        obtain ⟨a, -, c, d⟩ := inv.drain_shutdown hp
        exact ⟨a, rfl, c, d⟩
      · intro hs
        exact inv.unsynced hs
  | addSecretBinding k h =>
      subst h
      refine ⟨inv.counter_eq, inv.running_synced, ?_, ?_, inv.returned_cancelled,
        ?_, ?_, inv.synced_not_wait⟩
      · intro hp
        obtain ⟨a, b, c, d⟩ := inv.drain_shutdown hp
        exact ⟨a, b, by rw [WorkQueue.add_shuttingDown]; exact c, d⟩
      · intro hs
        obtain ⟨a, b, c, d, e, f, g⟩ := inv.unsynced hs
        exact ⟨a, b, c, d, by rw [WorkQueue.add_shuttingDown]; exact e, f, g⟩
      · intro hp hq0
        have hsd := (inv.drain_shutdown hp).2.2.1
        rw [WorkQueue.add_of_shuttingDown hsd]
        exact inv.drain_zero hp hq0
      · intro hp hs
        obtain ⟨a, b, c, d, e⟩ := inv.returned_drained hp hs
        rw [WorkQueue.add_of_shuttingDown d]
        exact ⟨a, b, c, d, e⟩
  | addShoot k h =>
      subst h
      refine ⟨inv.counter_eq, inv.running_synced, ?_, ?_, inv.returned_cancelled,
        ?_, ?_, inv.synced_not_wait⟩
      · intro hp
        obtain ⟨a, b, c, d⟩ := inv.drain_shutdown hp
        exact ⟨a, b, c, by rw [WorkQueue.add_shuttingDown]; exact d⟩
      · intro hs
        obtain ⟨a, b, c, d, e, f, g⟩ := inv.unsynced hs
        exact ⟨a, b, c, d, e, by rw [WorkQueue.add_shuttingDown]; exact f, g⟩
      · intro hp hq0
        have hsd := (inv.drain_shutdown hp).2.2.2
        rw [WorkQueue.add_of_shuttingDown hsd]
        exact inv.drain_zero hp hq0
      · intro hp hs
        obtain ⟨a, b, c, d, e⟩ := inv.returned_drained hp hs
        rw [WorkQueue.add_of_shuttingDown e]
        exact ⟨a, b, c, d, e⟩
  | syncOk hp h =>
      subst h
      refine ⟨?_, fun _ => rfl, ?_, ?_, ?_, ?_, ?_, ?_⟩
      · show m + n = _
        rw [countNonExited_replicate_idle, countNonExited_replicate_idle]
      · intro hph; exact RunPhase.noConfusion hph
      · intro hs; exact Bool.noConfusion hs
      · intro hph; exact RunPhase.noConfusion hph
      · intro hph; exact RunPhase.noConfusion hph
      · intro hph; exact RunPhase.noConfusion hph
      · intro _; exact (by decide : RunPhase.running ≠ RunPhase.waitSync)
  | syncFail hp hc h =>
      subst h
      refine ⟨inv.counter_eq, ?_, ?_, ?_, fun _ => hc, ?_, ?_, ?_⟩
      · intro hph; exact RunPhase.noConfusion hph
      · intro hph; exact RunPhase.noConfusion hph
      · intro hs
        obtain ⟨a, b, c, d, e, f, -⟩ := inv.unsynced hs
        exact ⟨a, b, c, d, e, f, Or.inr rfl⟩
      · intro hph; exact RunPhase.noConfusion hph
      · intro _ hs
        exact absurd hp (inv.synced_not_wait hs)
      · intro _; exact (by decide : RunPhase.returned ≠ RunPhase.waitSync)
  | ctxDone hp hc h =>
      subst h
      refine ⟨inv.counter_eq, ?_, ?_, ?_, ?_, ?_, ?_, ?_⟩
      · intro hph; exact RunPhase.noConfusion hph
      · intro _; exact ⟨inv.running_synced hp, hc, rfl, rfl⟩
      · intro hs
        rw [inv.running_synced hp] at hs
        exact Bool.noConfusion hs
      · intro hph; exact RunPhase.noConfusion hph
      · intro _ hq0
        have h1 : s.secretBindingQueue.len = 0 := by
          have : s.secretBindingQueue.len + s.shootQueue.len = 0 := hq0
          omega
        have h2 : s.shootQueue.len = 0 := by
          have : s.secretBindingQueue.len + s.shootQueue.len = 0 := hq0
          omega
        exact ⟨fun _ => List.length_eq_zero.mp h1, fun _ => List.length_eq_zero.mp h2⟩
      · intro hph; exact RunPhase.noConfusion hph
      · intro _; exact (by decide : RunPhase.drain ≠ RunPhase.waitSync)
  | getSecretBinding i k q' hw hg h =>
      subst h
      refine ⟨?_, inv.running_synced, ?_, ?_, inv.returned_cancelled, ?_, ?_,
        inv.synced_not_wait⟩
      · have hset := countNonExited_set (WStatus.processing k) hw
        have hc := inv.counter_eq
        dsimp only
        simp only [WStatus.weight] at hset
        omega
      · intro hp
        obtain ⟨a, b, c, d⟩ := inv.drain_shutdown hp
        exact ⟨a, b, by rw [WorkQueue.get_shuttingDown hg]; exact c, d⟩
      · intro hs
        obtain ⟨hw0, -⟩ := inv.unsynced hs
        rw [hw0] at hw
        simp at hw
      · intro hp hq0
        exact ⟨fun hall =>
          absurd hall (not_allExited_set hw (fun he => WStatus.noConfusion he)),
          (inv.drain_zero hp hq0).2⟩
      · intro hp hs
        have h0 := inv.returned_drained hp hs
        have hcnt := inv.counter_eq
        rw [h0.2.2.1] at hcnt
        have hz : countNonExited s.secretBindingWorkers = 0 := by omega
        have hall := countNonExited_eq_zero.mp hz
        have hmem : WStatus.idle ∈ s.secretBindingWorkers := List.getElem?_mem hw
        exact absurd (hall _ hmem) (fun he => WStatus.noConfusion he)
  | doneSecretBinding i k hw h =>
      subst h
      refine ⟨?_, inv.running_synced, ?_, ?_, inv.returned_cancelled, ?_, ?_,
        inv.synced_not_wait⟩
      · have hset := countNonExited_set WStatus.idle hw
        have hc := inv.counter_eq
        dsimp only
        simp only [WStatus.weight] at hset
        omega
      · intro hp
        obtain ⟨a, b, c, d⟩ := inv.drain_shutdown hp
        exact ⟨a, b, by rw [WorkQueue.done_shuttingDown]; exact c, d⟩
      · intro hs
        obtain ⟨hw0, -⟩ := inv.unsynced hs
        rw [hw0] at hw
        simp at hw
      · intro hp hq0
        exact ⟨fun hall =>
          absurd hall (not_allExited_set hw (fun he => WStatus.noConfusion he)),
          (inv.drain_zero hp hq0).2⟩
      · intro hp hs
        have h0 := inv.returned_drained hp hs
        have hcnt := inv.counter_eq
        rw [h0.2.2.1] at hcnt
        have hz : countNonExited s.secretBindingWorkers = 0 := by omega
        have hall := countNonExited_eq_zero.mp hz
        have hmem : WStatus.processing k ∈ s.secretBindingWorkers :=
          List.getElem?_mem hw
        exact absurd (hall _ hmem) (fun he => WStatus.noConfusion he)
  | exitSecretBinding i hw hq hsd h =>
      subst h
      refine ⟨?_, inv.running_synced, ?_, ?_, inv.returned_cancelled, ?_, ?_,
        inv.synced_not_wait⟩
      · have hset := countNonExited_set WStatus.exited hw
        have hc := inv.counter_eq
        dsimp only
        simp only [WStatus.weight] at hset
        omega
      · intro hp
        exact inv.drain_shutdown hp
      · intro hs
        obtain ⟨hw0, -⟩ := inv.unsynced hs
        rw [hw0] at hw
        simp at hw
      · intro hp hq0
        exact ⟨fun _ => hq, (inv.drain_zero hp hq0).2⟩
      · intro hp hs
        have h0 := inv.returned_drained hp hs
        have hcnt := inv.counter_eq
        rw [h0.2.2.1] at hcnt
        have hz : countNonExited s.secretBindingWorkers = 0 := by omega
        have hall := countNonExited_eq_zero.mp hz
        have hmem : WStatus.idle ∈ s.secretBindingWorkers := List.getElem?_mem hw
        exact absurd (hall _ hmem) (fun he => WStatus.noConfusion he)
  | getShoot i k q' hw hg h =>
      subst h
      refine ⟨?_, inv.running_synced, ?_, ?_, inv.returned_cancelled, ?_, ?_,
        inv.synced_not_wait⟩
      · have hset := countNonExited_set (WStatus.processing k) hw
        have hc := inv.counter_eq
        dsimp only
        simp only [WStatus.weight] at hset
        omega
      · intro hp
        obtain ⟨a, b, c, d⟩ := inv.drain_shutdown hp
        exact ⟨a, b, c, by rw [WorkQueue.get_shuttingDown hg]; exact d⟩
      · intro hs
        obtain ⟨-, hw0, -⟩ := inv.unsynced hs
        rw [hw0] at hw
        simp at hw
      · intro hp hq0
        exact ⟨(inv.drain_zero hp hq0).1, fun hall =>
          absurd hall (not_allExited_set hw (fun he => WStatus.noConfusion he))⟩
      · intro hp hs
        have h0 := inv.returned_drained hp hs
        have hcnt := inv.counter_eq
        rw [h0.2.2.1] at hcnt
        have hz : countNonExited s.shootWorkers = 0 := by omega
        have hall := countNonExited_eq_zero.mp hz
        have hmem : WStatus.idle ∈ s.shootWorkers := List.getElem?_mem hw
        exact absurd (hall _ hmem) (fun he => WStatus.noConfusion he)
  | doneShoot i k hw h =>
      subst h
      refine ⟨?_, inv.running_synced, ?_, ?_, inv.returned_cancelled, ?_, ?_,
        inv.synced_not_wait⟩
      · have hset := countNonExited_set WStatus.idle hw
        have hc := inv.counter_eq
        dsimp only
        simp only [WStatus.weight] at hset
        omega
      · intro hp
        obtain ⟨a, b, c, d⟩ := inv.drain_shutdown hp
        exact ⟨a, b, c, by rw [WorkQueue.done_shuttingDown]; exact d⟩
      · intro hs
        obtain ⟨-, hw0, -⟩ := inv.unsynced hs
        rw [hw0] at hw
        simp at hw
      · intro hp hq0
        exact ⟨(inv.drain_zero hp hq0).1, fun hall =>
          absurd hall (not_allExited_set hw (fun he => WStatus.noConfusion he))⟩
      · intro hp hs
        have h0 := inv.returned_drained hp hs
        have hcnt := inv.counter_eq
        rw [h0.2.2.1] at hcnt
        have hz : countNonExited s.shootWorkers = 0 := by omega
        have hall := countNonExited_eq_zero.mp hz
        have hmem : WStatus.processing k ∈ s.shootWorkers := List.getElem?_mem hw
        exact absurd (hall _ hmem) (fun he => WStatus.noConfusion he)
  | exitShoot i hw hq hsd h =>
      subst h
      refine ⟨?_, inv.running_synced, ?_, ?_, inv.returned_cancelled, ?_, ?_,
        inv.synced_not_wait⟩
      · have hset := countNonExited_set WStatus.exited hw
        have hc := inv.counter_eq
        dsimp only
        simp only [WStatus.weight] at hset
        omega
      · intro hp
        exact inv.drain_shutdown hp
      · intro hs
        obtain ⟨-, hw0, -⟩ := inv.unsynced hs
        rw [hw0] at hw
        simp at hw
      · intro hp hq0
        exact ⟨(inv.drain_zero hp hq0).1, fun _ => hq⟩
      · intro hp hs
        have h0 := inv.returned_drained hp hs
        have hcnt := inv.counter_eq
        rw [h0.2.2.1] at hcnt
        have hz : countNonExited s.shootWorkers = 0 := by omega
        have hall := countNonExited_eq_zero.mp hz
        have hmem : WStatus.idle ∈ s.shootWorkers := List.getElem?_mem hw
        exact absurd (hall _ hmem) (fun he => WStatus.noConfusion he)
  | checkExit hp hq hw h =>
      subst h
      refine ⟨inv.counter_eq, ?_, ?_, ?_, ?_, ?_, ?_, ?_⟩
      · intro hph; exact RunPhase.noConfusion hph
      · intro hph; exact RunPhase.noConfusion hph
      · intro hs
        rw [(inv.drain_shutdown hp).1] at hs
        exact Bool.noConfusion hs
      · intro _; exact (inv.drain_shutdown hp).2.1
      · intro hph; exact RunPhase.noConfusion hph
      · intro _ _
        obtain ⟨hsb, hsh⟩ := inv.drain_zero hp hq
        have hcnt := inv.counter_eq
        rw [hw] at hcnt
        have hallSB := countNonExited_eq_zero.mp
          (by omega : countNonExited s.secretBindingWorkers = 0)
        have hallSH := countNonExited_eq_zero.mp
          (by omega : countNonExited s.shootWorkers = 0)
        exact ⟨hsb hallSB, hsh hallSH, hw, (inv.drain_shutdown hp).2.2.1,
          (inv.drain_shutdown hp).2.2.2⟩
      · intro _; exact (by decide : RunPhase.returned ≠ RunPhase.waitSync)

lemma rreach_preserves_inv {m n : Nat} {s s' : RunState}
    (inv : RunInv s) (r : RReach m n s s') : RunInv s' := by
  induction r with
  | refl => exact inv
  | tail _ step ih => exact rstep_preserves_inv ih step

/-- Claim C1: after the cancellation signal fires, Run (in an execution
whose cache sync succeeded) calls ShutDown on both queues and returns only
when the sum of the queue lengths and the running-worker count are both
zero: in every reachable state in which Run has returned, both queues are
shut down, the total queue length is zero and the running-worker counter is
zero. -/
theorem run_drain_sound (m n : Nat) (s : RunState)
    (hreach : RReach m n RunState.init s)
    (hret : s.phase = RunPhase.returned) (hsync : s.synced = true) :
    s.secretBindingQueue.shuttingDown = true ∧ s.shootQueue.shuttingDown = true ∧
      s.secretBindingQueue.len + s.shootQueue.len = 0 ∧
      s.numberOfRunningWorkers = 0 := by
  have inv := rreach_preserves_inv runInv_init hreach
  obtain ⟨hsb, hsh, hcnt, hsd1, hsd2⟩ := inv.returned_drained hret hsync
  exact ⟨hsd1, hsd2, by simp [WorkQueue.len, hsb, hsh], hcnt⟩

/-- The state in which a zero-worker execution of Run has returned after a
clean drain. -/
def drainedFinal : RunState :=
  ⟨RunPhase.returned, true, true, ⟨"SecretBinding", [], [], [], true⟩,
    ⟨"Shoot", [], [], [], true⟩, [], [], 0, 0, 0⟩

/-- Witness for claim C1 on a concrete execution with zero workers. -/
theorem run_drain_sound_witness :
    drainedFinal.secretBindingQueue.shuttingDown = true ∧
      drainedFinal.shootQueue.shuttingDown = true ∧
      drainedFinal.secretBindingQueue.len + drainedFinal.shootQueue.len = 0 ∧
      drainedFinal.numberOfRunningWorkers = 0 :=
  run_drain_sound 0 0 drainedFinal
    (Relation.ReflTransGen.head (RStep.cancel _ _ rfl)
      (Relation.ReflTransGen.head (RStep.syncOk _ _ rfl rfl)
        (Relation.ReflTransGen.head (RStep.ctxDone _ _ rfl rfl rfl)
          (Relation.ReflTransGen.single
            (RStep.checkExit _ _ rfl rfl rfl (by decide))))))
    rfl rfl

/-- The state in which Run has returned through the failed-cache-sync path
while a key enqueued by an event handler is still pending. -/
def returnedUndrained : RunState :=
  ⟨RunPhase.returned, true, false,
    ⟨"SecretBinding", ["seed/sb"], ["seed/sb"], [], false⟩,
    WorkQueue.newNamed "Shoot", [], [], 0, 0, 0⟩

/-- Counterexample to claim C3 as stated: an execution in which the cache
sync fails (which can happen only after cancellation) reaches a returned
state whose SecretBinding queue still holds a key, so Run does return
without the queues being fully drained. -/
theorem run_returns_undrained_counterexample :
    RReach 1 1 RunState.init returnedUndrained ∧
      returnedUndrained.phase = RunPhase.returned ∧
      returnedUndrained.secretBindingQueue.len ≠ 0 := by
  refine ⟨?_, rfl, by decide⟩
  refine Relation.ReflTransGen.head
    (RStep.addSecretBinding _ _ "seed/sb" rfl) ?_
  refine Relation.ReflTransGen.head (RStep.cancel _ _ rfl) ?_
  exact Relation.ReflTransGen.single (RStep.syncFail _ _ rfl rfl (by decide))

/-- Claim C3 (amended): Run never returns before the context is cancelled;
and when the initial cache sync succeeded, it also does not return until
both queues are fully drained and the running-worker count is zero. (As
stated, the claim fails on the failed-cache-sync path, which returns after
cancellation but without draining.) -/
theorem run_blocks_until_cancellation (m n : Nat) (s : RunState)
    (hreach : RReach m n RunState.init s) (hret : s.phase = RunPhase.returned) :
    s.cancelled = true ∧
      (s.synced = true →
        s.secretBindingQueue.len + s.shootQueue.len = 0 ∧
          s.numberOfRunningWorkers = 0) := by
  have inv := rreach_preserves_inv runInv_init hreach
  refine ⟨inv.returned_cancelled hret, fun hs => ?_⟩
  obtain ⟨hsb, hsh, hcnt, -, -⟩ := inv.returned_drained hret hs
  exact ⟨by simp [WorkQueue.len, hsb, hsh], hcnt⟩

/-- Witness for claim C3 (amended) on the failed-sync execution. -/
theorem run_blocks_until_cancellation_witness :
    returnedUndrained.cancelled = true ∧
      (returnedUndrained.synced = true →
        returnedUndrained.secretBindingQueue.len +
            returnedUndrained.shootQueue.len = 0 ∧
          returnedUndrained.numberOfRunningWorkers = 0) :=
  run_blocks_until_cancellation 1 1 returnedUndrained
    (Relation.ReflTransGen.head
      (RStep.addSecretBinding _ _ "seed/sb" rfl)
      (Relation.ReflTransGen.head (RStep.cancel _ _ rfl)
        (Relation.ReflTransGen.single
          (RStep.syncFail _ _ rfl rfl (by decide))))) rfl

/-- The drain-phase state of an execution with one SecretBinding worker in
which one key was pending when the cancellation fired: the queueLengths
snapshot of line 129 is one. -/
def drainHang : RunState :=
  ⟨RunPhase.drain, true, true,
    ⟨"SecretBinding", ["seed/sb"], ["seed/sb"], [], true⟩,
    ⟨"Shoot", [], [], [], true⟩, [WStatus.idle], [], 1, 1, 1⟩

/-- Claim C2, behaviour of the code at the failing input: the shutdown loop
tests the queueLengths snapshot computed once at line 129 and never
recomputes it, so from the drain state with snapshot one no execution ever
reaches the returned phase - even though an execution exists in which the
worker fully drains the queue and the running-worker count reaches zero,
where the recomputing loop demanded by the claim would terminate. -/
theorem run_drain_loop_stale_snapshot :
    RReach 1 0 RunState.init drainHang ∧
      (∀ s, RReach 1 0 drainHang s → s.phase ≠ RunPhase.returned) ∧
      (∃ s, RReach 1 0 drainHang s ∧ s.secretBindingQueue.len = 0 ∧
        s.numberOfRunningWorkers = 0 ∧ s.phase = RunPhase.drain) := by
  refine ⟨?_, ?_, ?_⟩
  · refine Relation.ReflTransGen.head
      (RStep.addSecretBinding _ _ "seed/sb" rfl) ?_
    refine Relation.ReflTransGen.head (RStep.cancel _ _ rfl) ?_
    refine Relation.ReflTransGen.head (RStep.syncOk _ _ rfl rfl) ?_
    exact Relation.ReflTransGen.single (RStep.ctxDone _ _ rfl rfl (by decide))
  · have step : ∀ s s', s.phase = RunPhase.drain ∧ s.queueLengths = 1 →
        RStep 1 0 s s' → s'.phase = RunPhase.drain ∧ s'.queueLengths = 1 := by
      intro s s' hJ st
      cases st with
      | cancel h => subst h; exact hJ
      | addSecretBinding k h => subst h; exact hJ
      | addShoot k h => subst h; exact hJ
      | syncOk hp h => rw [hJ.1] at hp; exact absurd hp (by decide)
      | syncFail hp hc h => rw [hJ.1] at hp; exact absurd hp (by decide)
      | ctxDone hp hc h => rw [hJ.1] at hp; exact absurd hp (by decide)
      | getSecretBinding i k q' hw hg h => subst h; exact hJ
      | doneSecretBinding i k hw h => subst h; exact hJ
      | exitSecretBinding i hw hq hsd h => subst h; exact hJ
      | getShoot i k q' hw hg h => subst h; exact hJ
      | doneShoot i k hw h => subst h; exact hJ
      | exitShoot i hw hq hsd h => subst h; exact hJ
      | checkExit hp hq hw h => rw [hJ.2] at hq; exact absurd hq (by decide)
    have hall : ∀ s, RReach 1 0 drainHang s →
        s.phase = RunPhase.drain ∧ s.queueLengths = 1 := by
      intro s hr
      induction hr with
      | refl => exact ⟨rfl, rfl⟩
      | tail _ st ih => exact step _ _ ih st
    intro s hr hret
    have hc := (hall s hr).1
    rw [hret] at hc
    exact RunPhase.noConfusion hc
  · refine ⟨⟨RunPhase.drain, true, true, ⟨"SecretBinding", [], [], [], true⟩,
      ⟨"Shoot", [], [], [], true⟩, [WStatus.exited], [], 0, 1, 2⟩, ?_, rfl, rfl, rfl⟩
    refine Relation.ReflTransGen.head
      (RStep.getSecretBinding _ _ 0 "seed/sb"
        ⟨"SecretBinding", [], [], ["seed/sb"], true⟩
        (by decide) (by decide) rfl) ?_
    refine Relation.ReflTransGen.head
      (RStep.doneSecretBinding _ _ 0 "seed/sb" (by decide) rfl) ?_
    exact Relation.ReflTransGen.single
      (RStep.exitSecretBinding _ _ 0 (by decide) (by decide) (by decide) (by decide))

/-- Witness for the claim C2 theorem at the concrete hang state. -/
theorem run_drain_loop_stale_snapshot_witness :
    RReach 1 0 RunState.init drainHang ∧
      drainHang.phase ≠ RunPhase.returned ∧
      (∃ s, RReach 1 0 drainHang s ∧ s.secretBindingQueue.len = 0 ∧
        s.numberOfRunningWorkers = 0 ∧ s.phase = RunPhase.drain) :=
  ⟨run_drain_loop_stale_snapshot.1,
    run_drain_loop_stale_snapshot.2.1 drainHang Relation.ReflTransGen.refl,
    run_drain_loop_stale_snapshot.2.2⟩

/-- Claim C6: for every pair of worker counts, Run creates exactly m
workers on the SecretBinding queue wired to the SecretBinding reconciler
and exactly n workers on the Shoot queue wired to the SecretBinding
provider reconciler, the two counts being independent; and from any
state awaiting the cache sync the spawn transition yields exactly those
two worker pools. -/
theorem run_spawns_workers (m n : Nat) :
    ((spawnWorkers m n).filter
      (fun w => w.queue == QueueId.secretBinding &&
        w.reconciler == ReconcilerId.secretBinding)).length = m ∧
    ((spawnWorkers m n).filter
      (fun w => w.queue == QueueId.shoot &&
        w.reconciler == ReconcilerId.secretBindingProvider)).length = n ∧
    (spawnWorkers m n).length = m + n ∧
    (∀ s : RunState, s.phase = RunPhase.waitSync →
      ∃ s', RStep m n s s' ∧
        s'.secretBindingWorkers = List.replicate m WStatus.idle ∧
        s'.shootWorkers = List.replicate n WStatus.idle ∧
        s'.numberOfRunningWorkers = m + n) := by
  refine ⟨?_, ?_, ?_, ?_⟩
  · unfold spawnWorkers
    rw [List.filter_append, List.filter_replicate_of_pos (by decide),
      List.filter_replicate_of_neg (by decide)]
    simp
  · unfold spawnWorkers
    rw [List.filter_append, List.filter_replicate_of_neg (by decide),
      List.filter_replicate_of_pos (by decide)]
    simp
  · unfold spawnWorkers
    simp
  · intro s hp
    exact ⟨_, RStep.syncOk _ _ hp rfl, rfl, rfl, rfl⟩

/-- Witness for claim C6 at worker counts two and three, spawning from the
initial state. -/
theorem run_spawns_workers_witness :
    ((spawnWorkers 2 3).filter
      (fun w => w.queue == QueueId.secretBinding &&
        w.reconciler == ReconcilerId.secretBinding)).length = 2 ∧
    ((spawnWorkers 2 3).filter
      (fun w => w.queue == QueueId.shoot &&
        w.reconciler == ReconcilerId.secretBindingProvider)).length = 3 ∧
    (spawnWorkers 2 3).length = 2 + 3 ∧
    (∃ s', RStep 2 3 RunState.init s' ∧
      s'.secretBindingWorkers = List.replicate 2 WStatus.idle ∧
      s'.shootWorkers = List.replicate 3 WStatus.idle ∧
      s'.numberOfRunningWorkers = 2 + 3) := by
  have h := run_spawns_workers 2 3
  exact ⟨h.1, h.2.1, h.2.2.1, h.2.2.2 RunState.init rfl⟩

/-- Claim C10: when the initial cache sync fails, Run returns with no
worker started, nothing sent on the worker channel, no ShutDown performed
and both queues still accepting. -/
theorem run_syncfail_no_effects (m n : Nat) (s : RunState)
    (hreach : RReach m n RunState.init s)
    (_hret : s.phase = RunPhase.returned) (hsync : s.synced = false) :
    s.secretBindingWorkers = [] ∧ s.shootWorkers = [] ∧
      s.workerChSends = 0 ∧ s.numberOfRunningWorkers = 0 ∧
      s.secretBindingQueue.shuttingDown = false ∧
      s.shootQueue.shuttingDown = false := by
  have inv := rreach_preserves_inv runInv_init hreach
  obtain ⟨a, b, c, d, e, f, -⟩ := inv.unsynced hsync
  exact ⟨a, b, d, c, e, f⟩

/-- The state in which Run has returned through the failed-cache-sync path
of an execution without any event. -/
def syncFailReturned : RunState :=
  ⟨RunPhase.returned, true, false, WorkQueue.newNamed "SecretBinding",
    WorkQueue.newNamed "Shoot", [], [], 0, 0, 0⟩

/-- Witness for claim C10 on a concrete failed-sync execution. -/
theorem run_syncfail_no_effects_witness :
    syncFailReturned.secretBindingWorkers = [] ∧
      syncFailReturned.shootWorkers = [] ∧
      syncFailReturned.workerChSends = 0 ∧
      syncFailReturned.numberOfRunningWorkers = 0 ∧
      syncFailReturned.secretBindingQueue.shuttingDown = false ∧
      syncFailReturned.shootQueue.shuttingDown = false :=
  run_syncfail_no_effects 5 7 syncFailReturned
    (Relation.ReflTransGen.head (RStep.cancel _ _ rfl)
      (Relation.ReflTransGen.single (RStep.syncFail _ _ rfl rfl rfl)))
    rfl rfl

/-! ### The running-worker counter: channel signals and direct accesses

A fine-grained embedding of the counter goroutine (source lines 107 to
113), the signal sends performed inside CreateWorker calls, and the direct
reads of the materialized value by the shutdown loop (lines 132 and
136). -/

/-- The agent performing a step that may touch the running-worker counter:
the counter goroutine (the owner of the materialized value), the shutdown
loop of Run, or a worker task sending on the channel. -/
inductive CounterAgent
  | owner
  | mainLoop
  | worker (i : Nat)
deriving DecidableEq

/-- The kind of access to the materialized counter a step performs. -/
inductive CounterAccess
  | read
  | write
deriving DecidableEq

/-- A step label: the agent and its access to the materialized counter, if
any. -/
structure CounterLabel where
  agent : CounterAgent
  access : Option CounterAccess
deriving DecidableEq

/-- The state of the counter subsystem: the signals sent on workerCh and
not yet consumed, and the materialized numberOfRunningWorkers field. -/
structure CounterState where
  inbox : List Int
  numberOfRunningWorkers : Int
deriving DecidableEq

/-- Labeled steps of the counter subsystem: a worker (or a CreateWorker
call on its behalf) sends a plus-one or minus-one signal and touches the
materialized value in no other way; the single consumer goroutine receives
the next signal in order and adds it to the materialized value (the only
writes); and the shutdown loop of Run reads the materialized value
directly. -/
inductive CStep : CounterState → CounterLabel → CounterState → Prop
  | send (c c' : CounterState) (i : Nat) (d : Int)
      (hd : d = 1 ∨ d = -1)
      (h : c' = { c with inbox := c.inbox ++ [d] }) :
      CStep c ⟨CounterAgent.worker i, none⟩ c'
  | consume (c c' : CounterState) (d : Int) (rest : List Int)
      (hq : c.inbox = d :: rest)
      (h : c' = ⟨rest, c.numberOfRunningWorkers + d⟩) :
      CStep c ⟨CounterAgent.owner, some CounterAccess.write⟩ c'
  | mainRead (c : CounterState) :
      CStep c ⟨CounterAgent.mainLoop, some CounterAccess.read⟩ c

/-- Counterexample to claim C4 as stated: the consumer goroutine is not
the only reader of the materialized counter - the shutdown loop of Run
reads numberOfRunningWorkers directly (line 132), concurrently with the
consumer goroutine, which stays live because workerCh is never closed. -/
theorem counter_read_by_other_goroutine :
    CStep ⟨[], 3⟩ ⟨CounterAgent.mainLoop, some CounterAccess.read⟩ ⟨[], 3⟩ ∧
      CounterAgent.mainLoop ≠ CounterAgent.owner :=
  ⟨CStep.mainRead _, by decide⟩

/-- Claim C4 (amended): every write to the materialized running-worker
counter is performed by the single consumer goroutine of workerCh, and a
worker step never accesses the materialized value at all (workers only
send increment and decrement signals); the shutdown loop of Run, however,
is a second reader of the materialized value. -/
theorem counter_writes_only_by_owner (c c' : CounterState) (l : CounterLabel)
    (st : CStep c l c') :
    (l.access = some CounterAccess.write → l.agent = CounterAgent.owner) ∧
      (∀ i, l.agent = CounterAgent.worker i → l.access = none) := by
  cases st with
  | send i d hd h =>
      exact ⟨fun hc => Option.noConfusion hc, fun _ _ => rfl⟩
  | consume d rest hq h =>
      exact ⟨fun _ => rfl, fun i hi => CounterAgent.noConfusion hi⟩
  | mainRead =>
      exact ⟨fun hc => CounterAccess.noConfusion (Option.some.inj hc),
        fun i hi => CounterAgent.noConfusion hi⟩

/-- Witness for claim C4 (amended) at a concrete consume step. -/
theorem counter_writes_only_by_owner_witness :
    ((⟨CounterAgent.owner, some CounterAccess.write⟩ : CounterLabel).access =
        some CounterAccess.write →
      (⟨CounterAgent.owner, some CounterAccess.write⟩ : CounterLabel).agent =
        CounterAgent.owner) ∧
      (∀ i, (⟨CounterAgent.owner, some CounterAccess.write⟩ : CounterLabel).agent =
          CounterAgent.worker i →
        (⟨CounterAgent.owner, some CounterAccess.write⟩ : CounterLabel).access =
          none) :=
  counter_writes_only_by_owner ⟨[1], 0⟩ ⟨[], 1⟩ _ (CStep.consume _ _ 1 [] rfl rfl)

/-! ### The Bastion extension resource -/

/-- ObjectMeta: identity and lifecycle metadata of an API object, reduced
to the fields the lifecycle contract uses. -/
structure ObjectMeta where
  name : String
  inNamespace : String
  generation : Nat
  deletionTimestamp : Option Nat
  finalizers : List String
deriving DecidableEq

/-- networkingv1.IPBlock: a CIDR with excluded sub-ranges. -/
structure IPBlock where
  cidr : String
  excluded : List String
deriving DecidableEq

/-- BastionIngressPolicy (types_bastion.go lines 73 to 76): an IP block
allowed to access the bastion. -/
structure BastionIngressPolicy where
  ipBlock : IPBlock
deriving DecidableEq

/-- The DefaultSpec common fields of extension resources, reduced to the
extension type tag. -/
structure DefaultSpec where
  extensionType : String
deriving DecidableEq

/-- BastionSpec (types_bastion.go lines 61 to 70): common fields, the
immutable base64 user data (held as bytes), and the ingress policies. -/
structure BastionSpec where
  defaultSpec : DefaultSpec
  userData : List Nat
  ingress : List BastionIngressPolicy
deriving DecidableEq

/-- The DefaultStatus common fields of extension resources, reduced to the
observed generation. -/
structure DefaultStatus where
  observedGeneration : Nat
deriving DecidableEq

/-- corev1.LoadBalancerIngress: the external IP or hostname of the
bastion. -/
structure LoadBalancerIngress where
  ip : String
  hostname : String
deriving DecidableEq

/-- BastionStatus (types_bastion.go lines 79 to 84). -/
structure BastionStatus where
  defaultStatus : DefaultStatus
  ingress : LoadBalancerIngress
deriving DecidableEq

/-- Bastion (types_bastion.go lines 38 to 48): metadata, a Spec that is
immutable while the deletion timestamp is set, and a Status. -/
structure Bastion where
  metadata : ObjectMeta
  spec : BastionSpec
  status : BastionStatus
deriving DecidableEq

/-- Modelled from the spec: the update admission for Bastion objects (the
validation code enforcing the field comments of types_bastion.go is not
part of the reviewed sources). An update is admitted only if the identity
is preserved, the user data is unchanged (the field is always immutable),
and, once a deletion timestamp is set, the whole Spec and the deletion
timestamp itself are unchanged; Status updates stay free. -/
def validBastionUpdate (old new : Bastion) : Bool :=
  decide (new.metadata.name = old.metadata.name) &&
    decide (new.metadata.inNamespace = old.metadata.inNamespace) &&
    decide (new.spec.userData = old.spec.userData) &&
    (if old.metadata.deletionTimestamp.isSome then
      decide (new.spec = old.spec) &&
        decide (new.metadata.deletionTimestamp = old.metadata.deletionTimestamp)
    else true)

/-- The backing store applies an update only when admission passes. -/
def applyBastionUpdate (old new : Bastion) : Option Bastion :=
  if validBastionUpdate old new then some new else none

/-- Claim C8: once a Bastion's deletion timestamp is non-null its Spec is
read-only - any update the system can apply through admission leaves the
Spec unchanged. -/
theorem bastion_spec_immutable_after_deletion (old new b : Bastion)
    (hdel : old.metadata.deletionTimestamp.isSome = true)
    (happly : applyBastionUpdate old new = some b) :
    b.spec = old.spec := by
  unfold applyBastionUpdate at happly
  split at happly
  · rename_i hv
    have hb : new = b := Option.some.inj happly
    subst hb
    unfold validBastionUpdate at hv
    rw [hdel, if_pos rfl] at hv
    simp only [Bool.and_eq_true, decide_eq_true_eq] at hv
    exact hv.2.1
  · exact absurd happly (by simp)

/-- A Bastion marked for deletion. -/
def bastionOld : Bastion :=
  ⟨⟨"b1", "garden", 2, some 100, ["gardener"]⟩,
    ⟨⟨"aws"⟩, [7, 7], [⟨⟨"10.0.0.0/8", []⟩⟩]⟩,
    ⟨⟨1⟩, ⟨"", ""⟩⟩⟩

/-- A status-only update of the deleted Bastion. -/
def bastionNew : Bastion :=
  ⟨⟨"b1", "garden", 2, some 100, ["gardener"]⟩,
    ⟨⟨"aws"⟩, [7, 7], [⟨⟨"10.0.0.0/8", []⟩⟩]⟩,
    ⟨⟨2⟩, ⟨"192.0.2.7", ""⟩⟩⟩

/-- Witness for claim C8: the admitted status-only update of a Bastion in
deletion leaves the Spec untouched. -/
theorem bastion_spec_immutable_after_deletion_witness :
    bastionNew.spec = bastionOld.spec :=
  bastion_spec_immutable_after_deletion bastionOld bastionNew bastionNew
    rfl (by decide)

end Gardener
